import Mathlib

/-!
Verification of the Shelly-Thermostat heating control backend
(`shelly-local-backend/server.js`): the reconciliation engine inside
`heatingControlLoop`, the boost store (`activeBoosts` and its routes), and
the commanded-state cache / dispatcher (`lastCommandedRadiatorState`).

Embedding conventions:
- JavaScript numbers (epoch-millisecond timestamps, durations in minutes,
  temperatures in degrees C) are modelled as `Int`: the control logic uses
  only `+`, `-`, `*` and order comparisons, which are uniform across the
  ordered rings a JS number can denote at the precision exercised here.
- Wall-clock times are the zero-padded "HH:MM" strings the code builds and
  compares with the JavaScript `>=` / `<` string operators; those
  operators compare code units lexicographically, embedded below as
  `jsStrLt` / `jsStrGe` over the character lists of the strings.
- The mutable stores (`activeBoosts`, `lastCommandedRadiatorState`) are
  modelled as functions `String → Option _`, updated by pointwise
  override; absence of a key is `none`.
- Network effects are oracles passed in: `fetch` gives the sensor value a
  GET to the sensor URL would return (`none` for any HTTP failure or an
  absent/NULL value), `sendOk` says whether a Switch.Set call succeeds.
-/

/-- Lexicographic order on character lists, as JavaScript compares strings
by code units: a proper prefix is smaller, otherwise the first differing
character decides. -/
def jsCharsLt : List Char → List Char → Bool
  | _, [] => false
  | [], _ :: _ => true
  | a :: as, b :: bs =>
      if a < b then true
      else if b < a then false
      else jsCharsLt as bs

/-- JavaScript string comparison a < b. -/
def jsStrLt (a b : String) : Bool := jsCharsLt a.data b.data

/-- JavaScript string comparison a >= b, which is the negation of a < b for
totally ordered (non-NaN) operands such as strings. -/
def jsStrGe (a b : String) : Bool := !jsStrLt a b

/-- Device record, from the devices registry (`devices.json` entries). -/
structure Device where
  id : String
  name : String
  ip : String
  relayIndex : Nat
  btSensorId : Option Nat
deriving DecidableEq, Repr

/-- Weekday keys used by the control loop. -/
inductive Weekday where
  | sun | mon | tue | wed | thu | fri | sat
deriving DecidableEq, Repr

/-- Control mode of a room; validated to one of the two values at the
registry boundary (POST and PUT on rooms). -/
inductive ControlMode where
  | thermostat | schedule
deriving DecidableEq, Repr

/-- One schedule time slot: start and end as "HH:MM" strings, the set of
radiator ids enabled during the slot, and an optional per-slot target
temperature override. -/
structure TimeSlot where
  startTime : String
  endTime : String
  enabledRadiatorIds : List String
  targetTempC : Option Int
deriving DecidableEq, Repr

/-- Room record. Registry validation (POST and PUT on rooms) guarantees
that thermostat rooms carry numeric targetTempC and hysteresisC, so those
fields are modelled as numbers (schedule-mode rooms never read them). -/
structure Room where
  roomId : String
  name : String
  radiatorDeviceIds : List String
  controlMode : ControlMode
  sensorDeviceId : Option String
  targetTempC : Int
  hysteresisC : Int
  schedule : Option (Weekday → List TimeSlot)

/-- Boost entry stored in `activeBoosts`: expiry timestamp (epoch ms) and
the radiators forced on. -/
structure Boost where
  «until» : Int
  radiatorIds : List String
deriving DecidableEq, Repr

/-- Lookup of a device by id (`findDeviceById` in server.js). -/
def findDeviceById (devices : List Device) (deviceId : String) : Option Device :=
  devices.find? (fun d => d.id == deviceId)

/-- Condition of the active-slot scan in heatingControlLoop:
`currentTime >= slot.startTime && currentTime < slot.endTime`. -/
def slotMatches (slot : TimeSlot) (currentTime : String) : Bool :=
  jsStrGe currentTime slot.startTime && jsStrLt currentTime slot.endTime

/-- The active-slot scan of heatingControlLoop: first slot in stored order
whose half-open interval contains the current time, else none. -/
def findActiveSlot (slots : List TimeSlot) (currentTime : String) : Option TimeSlot :=
  match slots with
  | [] => none
  | slot :: rest =>
      if slotMatches slot currentTime then some slot
      else findActiveSlot rest currentTime

/-- Schedule of the current weekday: `room.schedule?.[dayOfWeek] || []`. -/
def todaysSchedule (room : Room) (weekday : Weekday) : List TimeSlot :=
  match room.schedule with
  | some sched => sched weekday
  | none => []

/-- Radiators enabled by the active slot:
`activeSlot?.enabledRadiatorIds || []`. -/
def enabledIdsInSlot (activeSlot : Option TimeSlot) : List String :=
  match activeSlot with
  | some slot => slot.enabledRadiatorIds
  | none => []

/-- The effective target temperature of the thermostat branch: the active
slot override `activeSlot.targetTempC` when the slot exists and defines
one, else the global `room.targetTempC`. -/
def effectiveTarget (room : Room) (activeSlot : Option TimeSlot) : Int :=
  match activeSlot with
  | some slot =>
      match slot.targetTempC with
      | some tc => tc
      | none => room.targetTempC
  | none => room.targetTempC

/-- Whether any radiator of the room was last commanded on:
`room.radiatorDeviceIds.some(id => lastCommandedRadiatorState[id] === 'on')`. -/
def anyRadiatorLastOn (lastState : String → Option String)
    (radiatorIds : List String) : Bool :=
  radiatorIds.any (fun id => lastState id == some "on")

/-- Resolution of the sensor reading for a room, collapsing every failure
of the thermostat branch of heatingControlLoop to `none`: no
sensorDeviceId configured, sensor device missing from the registry, the
device lacking a btSensorId, the HTTP fetch failing, or the response value
being absent. Each of those paths leaves heatingNeededByTemp untouched in
the source. -/
def sensorRead (devices : List Device) (fetch : String → Nat → Option Int)
    (room : Room) : Option Int :=
  match room.sensorDeviceId with
  | none => none
  | some sid =>
      match findDeviceById devices sid with
      | none => none
      | some sensorDevice =>
          match sensorDevice.btSensorId with
          | none => none
          | some bts => fetch sensorDevice.ip bts

/-- The heatingNeededByTemp flag of heatingControlLoop: false unless the
room is in thermostat mode and the sensor read succeeds, in which case the
hysteresis comparison against the effective target decides, keeping the
last commanded state of any of the rooms radiators inside the band. -/
def computeHeatingNeeded (devices : List Device) (fetch : String → Nat → Option Int)
    (lastState : String → Option String) (room : Room)
    (activeSlot : Option TimeSlot) : Bool :=
  match room.controlMode with
  | ControlMode.schedule => false
  | ControlMode.thermostat =>
      match sensorRead devices fetch room with
      | none => false
      | some currentTemp =>
          let targetTemp := effectiveTarget room activeSlot
          let lowerBound := targetTemp - room.hysteresisC
          let upperBound := targetTemp + room.hysteresisC
          let lastAnyRadOn := anyRadiatorLastOn lastState room.radiatorDeviceIds
          if currentTemp < lowerBound then true
          else if currentTemp > upperBound then false
          else lastAnyRadOn

/-- Desired state of one radiator, the per-radiator branch of
heatingControlLoop: boost wins, else thermostat needs the slot AND the
temperature flag, else schedule needs the slot, default off. -/
def desiredRadiatorState (activeBoost : Option Boost)
    (enabledIds : List String) (controlMode : ControlMode)
    (heatingNeededByTemp : Bool) (radiatorId : String) : String :=
  let isRadiatorBoosted :=
    match activeBoost with
    | some boost => boost.radiatorIds.contains radiatorId
    | none => false
  if isRadiatorBoosted then "on"
  else
    let isEnabledBySchedule := enabledIds.contains radiatorId
    match controlMode with
    | ControlMode.thermostat =>
        if isEnabledBySchedule && heatingNeededByTemp then "on" else "off"
    | ControlMode.schedule =>
        if isEnabledBySchedule then "on" else "off"

/-- Per-room body of heatingControlLoop: resolves the active slot and the
active boost, computes heatingNeededByTemp, and queues one desired state
per radiator the room owns (the commandsToSend entries this room writes). -/
def processRoom (devices : List Device) (fetch : String → Nat → Option Int)
    (lastState : String → Option String) (boosts : String → Option Boost)
    (room : Room) (weekday : Weekday) (currentTime : String) :
    List (String × String) :=
  let activeBoost := boosts room.roomId
  let activeSlot := findActiveSlot (todaysSchedule room weekday) currentTime
  let enabledIds := enabledIdsInSlot activeSlot
  let heatingNeededByTemp := computeHeatingNeeded devices fetch lastState room activeSlot
  room.radiatorDeviceIds.map (fun radiatorId =>
    (radiatorId,
      desiredRadiatorState activeBoost enabledIds room.controlMode
        heatingNeededByTemp radiatorId))

/-- Boost-store errors surfaced by the boost routes: ports of the 400 and
404 responses of server.js. -/
inductive BoostError where
  | invalidInput | notFound
deriving DecidableEq, Repr

/-- Response body of a successful POST /rooms/:roomId/boost. -/
structure BoostResponse where
  roomId : String
  boostedRadiators : List String
  boostUntil : Int
deriving DecidableEq, Repr

/-- The POST /rooms/:roomId/boost handler. For a numeric durationMinutes
the guard `!durationMinutes || durationMinutes <= 0` is exactly
`durationMinutes <= 0` (the truthiness test only adds the case 0, already
covered). Returns the updated activeBoosts store and the response body. -/
def startBoost (rooms : List Room) (boosts : String → Option Boost)
    (roomId : String) (durationMinutes : Int)
    (radiatorIds : Option (List String)) (now : Int) :
    Except BoostError ((String → Option Boost) × BoostResponse) :=
  if durationMinutes ≤ 0 then Except.error BoostError.invalidInput
  else
    match rooms.find? (fun r => r.roomId == roomId) with
    | none => Except.error BoostError.notFound
    | some room =>
        let resolved : Except BoostError (List String) :=
          match radiatorIds with
          | some ids =>
              if ids.length > 0 then
                let filtered := ids.filter (fun id => room.radiatorDeviceIds.contains id)
                if filtered.length = 0 then Except.error BoostError.invalidInput
                else Except.ok filtered
              else Except.ok room.radiatorDeviceIds
          | none => Except.ok room.radiatorDeviceIds
        match resolved with
        | Except.error e => Except.error e
        | Except.ok boostedRadiators =>
            let boostUntil := now + durationMinutes * 60 * 1000
            Except.ok
              (fun rid => if rid = roomId then some ⟨boostUntil, boostedRadiators⟩ else boosts rid,
               ⟨roomId, boostedRadiators, boostUntil⟩)

/-- The POST /rooms/:roomId/cancel-boost handler: 404 when no entry is
present (expired or not), else delete the entry. -/
def cancelBoost (boosts : String → Option Boost) (roomId : String) :
    Except BoostError (String → Option Boost) :=
  match boosts roomId with
  | none => Except.error BoostError.notFound
  | some _ => Except.ok (fun rid => if rid = roomId then none else boosts rid)

/-- The expired-boost cleanup at the start of each heatingControlLoop tick
(and, with the same until/now comparison, the cleanup in GET
/rooms/boosted): every entry with `until <= now` is deleted. -/
def pruneBoosts (boosts : String → Option Boost) (now : Int) :
    String → Option Boost :=
  fun roomId =>
    match boosts roomId with
    | none => none
    | some b => if b.«until» ≤ now then none else some b

/-- The GET /rooms/:roomId/boost-status handler: returns the possibly
cleaned-up store and the active boost it reports (`none` when the route
answers boosted: false). The route deletes the entry when
`until - Date.now() <= 0`. -/
def boostStatus (boosts : String → Option Boost) (roomId : String) (now : Int) :
    (String → Option Boost) × Option Boost :=
  match boosts roomId with
  | none => (boosts, none)
  | some b =>
      if b.«until» - now ≤ 0 then
        (fun rid => if rid = roomId then none else boosts rid, none)
      else (boosts, some b)

/-- One operation touching the activeBoosts store: the boost route (a
store write), the cancel route, the per-tick or /rooms/boosted prune, and
the boost-status query with its defensive cleanup. -/
inductive BoostOp where
  | start (roomId : String) (b : Boost)
  | cancel (roomId : String)
  | prune (now : Int)
  | status (roomId : String) (now : Int)

/-- Effect of one store operation on activeBoosts. -/
def applyBoostOp (boosts : String → Option Boost) : BoostOp → (String → Option Boost)
  | BoostOp.start roomId b => fun rid => if rid = roomId then some b else boosts rid
  | BoostOp.cancel roomId =>
      match cancelBoost boosts roomId with
      | Except.ok boosts2 => boosts2
      | Except.error _ => boosts
  | BoostOp.prune now => pruneBoosts boosts now
  | BoostOp.status roomId now => (boostStatus boosts roomId now).1

/-- Effect of a sequence of store operations, oldest first. -/
def applyBoostOps (boosts : String → Option Boost) : List BoostOp → (String → Option Boost)
  | [] => boosts
  | op :: rest => applyBoostOps (applyBoostOp boosts op) rest

/-- Whether an operation starts a boost for the given room. -/
def startsBoostFor (roomId : String) : BoostOp → Bool
  | BoostOp.start rid _ => rid == roomId
  | _ => false

/-- The dispatch phase of heatingControlLoop over the queued commands:
skips devices missing from the registry, skips commands equal to the
cached last state, otherwise issues one Switch.Set call, updating
lastCommandedRadiatorState only when the call succeeds. Returns the final
cache and the list of issued calls in order. -/
def dispatchCommands (devices : List Device) (sendOk : Device → Bool → Bool)
    (lastState : String → Option String) :
    List (String × String) → (String → Option String) × List (String × String)
  | [] => (lastState, [])
  | (deviceId, desiredState) :: rest =>
      match findDeviceById devices deviceId with
      | none => dispatchCommands devices sendOk lastState rest
      | some device =>
          if lastState deviceId == some desiredState then
            dispatchCommands devices sendOk lastState rest
          else
            let turnOn := desiredState == "on"
            let newLast :=
              if sendOk device turnOn then
                fun d => if d = deviceId then some desiredState else lastState d
              else lastState
            let result := dispatchCommands devices sendOk newLast rest
            (result.1, (deviceId, desiredState) :: result.2)

/-- Schedule-mode room with two overlapping slots for every weekday: the
first enables no radiator, the second enables radiator a. -/
def overlapRoom : Room :=
  { roomId := "r1", name := "Room 1", radiatorDeviceIds := ["a"],
    controlMode := ControlMode.schedule, sensorDeviceId := none,
    targetTempC := 0, hysteresisC := 0,
    schedule := some (fun _ =>
      [⟨"09:00", "17:00", [], none⟩, ⟨"09:00", "17:00", ["a"], none⟩]) }

/-- Thermostat sensor device used by the concrete witnesses. -/
def witnessSensorDevice : Device :=
  { id := "s1", name := "Sensor 1", ip := "192.168.0.40", relayIndex := 0,
    btSensorId := some 200 }

/-- Thermostat-mode room used by the concrete witnesses: target 20, band 1,
one radiator c, no schedule. -/
def witnessThermoRoom : Room :=
  { roomId := "r2", name := "Room 2", radiatorDeviceIds := ["c"],
    controlMode := ControlMode.thermostat, sensorDeviceId := some "s1",
    targetTempC := 20, hysteresisC := 1, schedule := none }

/-- Relay device used by the dispatcher witnesses. -/
def witnessRelayDevice : Device :=
  { id := "a", name := "Radiator A", ip := "192.168.0.41", relayIndex := 0,
    btSensorId := none }

/-- Schedule-mode room owning only the unregistered radiator ghost, with an
all-day slot enabling it. -/
def ghostRoom : Room :=
  { roomId := "g", name := "Ghost Room", radiatorDeviceIds := ["ghost"],
    controlMode := ControlMode.schedule, sensorDeviceId := none,
    targetTempC := 0, hysteresisC := 0,
    schedule := some (fun _ => [⟨"00:00", "23:59", ["ghost"], none⟩]) }

/-- Schedule-mode room with the single radiator a, used by the boost-route
theorems. -/
def boostRouteRoom : Room :=
  { roomId := "r1", name := "Room 1", radiatorDeviceIds := ["a"],
    controlMode := ControlMode.schedule, sensorDeviceId := none,
    targetTempC := 0, hysteresisC := 0, schedule := none }


/-- Two characters that are not strictly ordered either way are equal. -/
theorem char_eq_of_not_lt {a b : Char} (h1 : ¬a < b) (h2 : ¬b < a) : a = b :=
  le_antisymm (le_of_not_lt h2) (le_of_not_lt h1)

/-- The embedded JavaScript string order is irreflexive. -/
theorem jsCharsLt_irrefl (a : List Char) : jsCharsLt a a = false := by
  induction a with
  | nil => rfl
  | cons c cs ih => simp only [jsCharsLt, if_neg (lt_irrefl c), ih]

/-- The embedded JavaScript string order is transitive. -/
theorem jsCharsLt_trans : ∀ (a b c : List Char),
    jsCharsLt a b = true → jsCharsLt b c = true → jsCharsLt a c = true := by
  intro a
  induction a with
  | nil =>
    intro b c _ hbc
    cases c with
    | nil => cases b <;> simp [jsCharsLt] at hbc
    | cons z zs => rfl
  | cons x xs ih =>
    intro b c hab hbc
    cases b with
    | nil => simp [jsCharsLt] at hab
    | cons y ys =>
      cases c with
      | nil => simp [jsCharsLt] at hbc
      | cons z zs =>
        simp only [jsCharsLt] at hab hbc ⊢
        by_cases hxy : x < y
        · by_cases hyz : y < z
          · rw [if_pos (lt_trans hxy hyz)]
          · by_cases hzy : z < y
            · rw [if_neg hyz, if_pos hzy] at hbc; cases hbc
            · have hzeq : y = z := char_eq_of_not_lt hyz hzy
              subst hzeq
              rw [if_pos hxy]
        · by_cases hyx : y < x
          · rw [if_neg hxy, if_pos hyx] at hab; cases hab
          · have hxeq : x = y := char_eq_of_not_lt hxy hyx
            subst hxeq
            rw [if_neg hxy, if_neg hyx] at hab
            by_cases hyz : x < z
            · rw [if_pos hyz]
            · by_cases hzy : z < x
              · rw [if_neg hyz, if_pos hzy] at hbc; cases hbc
              · have : x = z := char_eq_of_not_lt hyz hzy
                subst this
                rw [if_neg hyz, if_neg hzy] at hbc ⊢
                exact ih ys zs hab hbc

/-- The embedded JavaScript string order is total: two unordered lists are
equal. -/
theorem jsCharsLt_total : ∀ (a b : List Char),
    jsCharsLt a b = false → a = b ∨ jsCharsLt b a = true := by
  intro a
  induction a with
  | nil =>
    intro b hab
    cases b with
    | nil => exact Or.inl rfl
    | cons y ys => simp [jsCharsLt] at hab
  | cons x xs ih =>
    intro b hab
    cases b with
    | nil => exact Or.inr rfl
    | cons y ys =>
      simp only [jsCharsLt] at hab ⊢
      by_cases hxy : x < y
      · rw [if_pos hxy] at hab; cases hab
      · by_cases hyx : y < x
        · exact Or.inr (by rw [if_pos hyx])
        · have hxeq : x = y := char_eq_of_not_lt hxy hyx
          subst hxeq
          rw [if_neg hxy, if_neg hyx] at hab
          rcases ih ys hab with heq | hlt
          · exact Or.inl (by rw [heq])
          · exact Or.inr (by rw [if_neg hxy, if_neg hyx]; exact hlt)

/-- A slot whose end time is not later than its start time matches no
time of day. -/
theorem slotMatches_of_inverted (slot : TimeSlot)
    (h : jsStrLt slot.startTime slot.endTime = false) (t : String) :
    slotMatches slot t = false := by
  by_contra hm
  rw [Bool.not_eq_false, slotMatches, Bool.and_eq_true] at hm
  obtain ⟨hge, hlt⟩ := hm
  rw [jsStrGe, Bool.not_eq_true', jsStrLt] at hge
  rw [jsStrLt] at hlt h
  rcases jsCharsLt_total t.data slot.startTime.data hge with heq | hslt
  · rw [← heq, hlt] at h
    cases h
  · rw [jsCharsLt_trans _ _ _ hslt hlt] at h
    cases h

/-- No slot is active exactly when no stored slot contains the time. -/
theorem findActiveSlot_none_iff (slots : List TimeSlot) (t : String) :
    findActiveSlot slots t = none ↔ ∀ slot ∈ slots, slotMatches slot t = false := by
  induction slots with
  | nil => simp [findActiveSlot]
  | cons s rest ih =>
    by_cases h : slotMatches s t = true
    · simp [findActiveSlot, h]
    · rw [Bool.not_eq_true] at h
      simp [findActiveSlot, h, ih]

/-- The active slot is exactly the first stored slot containing the time:
it matches, and every slot stored before it does not. -/
theorem findActiveSlot_some_iff (slots : List TimeSlot) (t : String) (slot : TimeSlot) :
    findActiveSlot slots t = some slot ↔
      ∃ i : Nat, slots[i]? = some slot ∧ slotMatches slot t = true ∧
        ∀ j : Nat, j < i → ∀ s, slots[j]? = some s → slotMatches s t = false := by
  induction slots with
  | nil => simp [findActiveSlot]
  | cons s rest ih =>
    by_cases h : slotMatches s t = true
    · rw [findActiveSlot, if_pos h]
      constructor
      · rintro heq
        injection heq with heq
        subst heq
        exact ⟨0, by simp, h, fun j hj => absurd hj (by omega)⟩
      · rintro ⟨i, hi, _, hbefore⟩
        cases i with
        | zero =>
          simp only [List.getElem?_cons_zero, Option.some.injEq] at hi
          rw [hi]
        | succ k =>
          have h0 := hbefore 0 (Nat.succ_pos k) s (by simp)
          rw [h] at h0
          cases h0
    · rw [Bool.not_eq_true] at h
      rw [findActiveSlot, if_neg (by rw [h]; simp), ih]
      constructor
      · rintro ⟨i, hi, hm, hbefore⟩
        refine ⟨i + 1, by simpa using hi, hm, fun j hj s' hs' => ?_⟩
        cases j with
        | zero =>
          simp only [List.getElem?_cons_zero, Option.some.injEq] at hs'
          rw [← hs', h]
        | succ k =>
          exact hbefore k (by omega) s' (by simpa using hs')
      · rintro ⟨i, hi, hm, hbefore⟩
        cases i with
        | zero =>
          simp only [List.getElem?_cons_zero, Option.some.injEq] at hi
          rw [hi] at h
          rw [h] at hm
          cases hm
        | succ k =>
          exact ⟨k, by simpa using hi, hm,
            fun j hj s' hs' => hbefore (j + 1) (by omega) s' (by simpa using hs')⟩

/-- Looking up a key of the association list that maps each radiator to its
desired state yields the value of the mapped function. -/
theorem lookup_map_pair (l : List String) (f : String → String) (x : String)
    (hx : x ∈ l) :
    (l.map (fun r => (r, f r))).lookup x = some (f x) := by
  induction l with
  | nil => cases hx
  | cons a as ih =>
    by_cases h : x = a
    · subst h
      simp [List.lookup]
    · have hne : (x == a) = false := by simpa using h
      have hmem : x ∈ as := by
        rcases List.mem_cons.mp hx with h' | h'
        · exact absurd h' h
        · exact h'
      simp [List.lookup, hne, ih hmem]

/-- Membership in the radiator list is what makes a key present in the
queued commands of a room. -/
theorem lookup_map_pair_none (l : List String) (f : String → String) (x : String)
    (hx : x ∉ l) :
    (l.map (fun r => (r, f r))).lookup x = none := by
  induction l with
  | nil => rfl
  | cons a as ih =>
    have hne : (x == a) = false := by
      simp only [beq_eq_false_iff_ne, ne_eq]
      intro h
      exact hx (h ▸ List.mem_cons_self a as)
    have hmem : x ∉ as := fun h => hx (List.mem_cons_of_mem a h)
    simp [List.lookup, hne, ih hmem]

/-- The queued command of a radiator the room owns is its desired state as
computed from the active boost, the active slot, the mode and the
temperature flag. -/
theorem processRoom_lookup (devices : List Device) (fetch : String → Nat → Option Int)
    (lastState : String → Option String) (boosts : String → Option Boost)
    (room : Room) (weekday : Weekday) (t R : String) (hR : R ∈ room.radiatorDeviceIds) :
    (processRoom devices fetch lastState boosts room weekday t).lookup R =
      some (desiredRadiatorState (boosts room.roomId)
        (enabledIdsInSlot (findActiveSlot (todaysSchedule room weekday) t))
        room.controlMode
        (computeHeatingNeeded devices fetch lastState room
          (findActiveSlot (todaysSchedule room weekday) t)) R) :=
  lookup_map_pair room.radiatorDeviceIds _ R hR

/-- C6: active-slot selection is deterministic first-match-wins over a
half-open interval: a selected slot contains the time and every slot
stored before it does not; when no slot is selected, no stored slot
contains the time; and a slot whose end is not later than its start (a
midnight-spanning slot) matches no time at all. -/
theorem activeSlot_first_match_halfopen (slots : List TimeSlot) (t : String) :
    (∀ slot, findActiveSlot slots t = some slot →
      ∃ i : Nat, slots[i]? = some slot ∧ slotMatches slot t = true ∧
        ∀ j : Nat, j < i → ∀ s, slots[j]? = some s → slotMatches s t = false)
    ∧ (findActiveSlot slots t = none → ∀ slot ∈ slots, slotMatches slot t = false)
    ∧ (∀ slot : TimeSlot, jsStrLt slot.startTime slot.endTime = false →
        slotMatches slot t = false) :=
  ⟨fun slot h => (findActiveSlot_some_iff slots t slot).mp h,
   fun h => (findActiveSlot_none_iff slots t).mp h,
   fun slot h => slotMatches_of_inverted slot h t⟩

/-- Witness for C6 at a concrete midnight-spanning slot and time. -/
theorem activeSlot_first_match_halfopen_witness :
    slotMatches ⟨"17:00", "09:00", ["a"], none⟩ "12:00" = false :=
  (activeSlot_first_match_halfopen [] "12:00").2.2 ⟨"17:00", "09:00", ["a"], none⟩ (by decide)

/-- C1 counterexample: in a schedule-mode room with no boost, at 10:00 some
stored slot (the second) contains the time and enables radiator a, yet the
loop computes desired state off, because the first stored slot also
contains the time and does not enable a. The purely existential reading of
the claim fails on overlapping slots. -/
theorem schedule_existential_counterexample :
    (processRoom [] (fun _ _ => none) (fun _ => none) (fun _ => none)
        overlapRoom Weekday.mon "10:00").lookup "a" = some "off"
    ∧ (todaysSchedule overlapRoom Weekday.mon)[1]? =
        some ⟨"09:00", "17:00", ["a"], none⟩
    ∧ slotMatches ⟨"09:00", "17:00", ["a"], none⟩ "10:00" = true
    ∧ "a" ∈ (⟨"09:00", "17:00", ["a"], none⟩ : TimeSlot).enabledRadiatorIds :=
  ⟨rfl, rfl, by decide, by decide⟩

/-- C1 amended: for a schedule-mode room with no active boost, the desired
state of a radiator R the room owns is on exactly when the FIRST slot of
the weekday in stored order whose half-open [start, end) interval contains
the time exists and enables R; otherwise it is off. -/
theorem schedule_mode_desired_state (devices : List Device)
    (fetch : String → Nat → Option Int) (lastState : String → Option String)
    (boosts : String → Option Boost) (room : Room) (weekday : Weekday)
    (t R : String)
    (hmode : room.controlMode = ControlMode.schedule)
    (hnoboost : boosts room.roomId = none)
    (hR : R ∈ room.radiatorDeviceIds) :
    ((processRoom devices fetch lastState boosts room weekday t).lookup R = some "on"
      ↔ ∃ i : Nat, ∃ slot,
          (todaysSchedule room weekday)[i]? = some slot ∧
          slotMatches slot t = true ∧ R ∈ slot.enabledRadiatorIds ∧
          ∀ j : Nat, j < i → ∀ s, (todaysSchedule room weekday)[j]? = some s →
            slotMatches s t = false)
    ∧ ((processRoom devices fetch lastState boosts room weekday t).lookup R = some "on"
       ∨ (processRoom devices fetch lastState boosts room weekday t).lookup R = some "off") := by
  have hlook := processRoom_lookup devices fetch lastState boosts room weekday t R hR
  rw [hnoboost, hmode] at hlook
  have hdes : desiredRadiatorState none
      (enabledIdsInSlot (findActiveSlot (todaysSchedule room weekday) t))
      ControlMode.schedule
      (computeHeatingNeeded devices fetch lastState room
        (findActiveSlot (todaysSchedule room weekday) t)) R
      = if (enabledIdsInSlot (findActiveSlot (todaysSchedule room weekday) t)).contains R
        then "on" else "off" := by
    simp [desiredRadiatorState]
  rw [hdes] at hlook
  constructor
  · rw [hlook]
    constructor
    · intro hon
      have hcont : (enabledIdsInSlot (findActiveSlot (todaysSchedule room weekday) t)).contains R = true := by
        by_contra hc
        rw [Bool.not_eq_true] at hc
        rw [if_neg (by rw [hc]; simp)] at hon
        exact absurd (Option.some.inj hon) (by decide)
      cases hact : findActiveSlot (todaysSchedule room weekday) t with
      | none => rw [hact] at hcont; simp [enabledIdsInSlot] at hcont
      | some slot =>
        rw [hact] at hcont
        obtain ⟨i, hi, hm, hbefore⟩ := (findActiveSlot_some_iff _ t slot).mp hact
        refine ⟨i, slot, hi, hm, ?_, hbefore⟩
        simpa [enabledIdsInSlot] using hcont
    · rintro ⟨i, slot, hi, hm, hmem, hbefore⟩
      have hact : findActiveSlot (todaysSchedule room weekday) t = some slot :=
        (findActiveSlot_some_iff _ t slot).mpr ⟨i, hi, hm, hbefore⟩
      rw [hact]
      have : (enabledIdsInSlot (some slot)).contains R = true := by
        simpa [enabledIdsInSlot] using hmem
      rw [if_pos (by rw [this])]
  · rw [hlook]
    by_cases hc : (enabledIdsInSlot (findActiveSlot (todaysSchedule room weekday) t)).contains R = true
    · exact Or.inl (by rw [if_pos (by rw [hc])])
    · rw [Bool.not_eq_true] at hc
      exact Or.inr (by rw [if_neg (by rw [hc]; simp)])

/-- Witness for the amended C1 at a concrete room: the single Monday slot
09:00 to 17:00 enables radiator a, so at 10:00 the desired state is on. -/
theorem schedule_mode_desired_state_witness :
    ((processRoom [] (fun _ _ => none) (fun _ => none) (fun _ => none)
        { roomId := "r1", name := "Room 1", radiatorDeviceIds := ["a"],
          controlMode := ControlMode.schedule, sensorDeviceId := none,
          targetTempC := 0, hysteresisC := 0,
          schedule := some (fun _ => [⟨"09:00", "17:00", ["a"], none⟩]) }
        Weekday.mon "10:00").lookup "a" = some "on") :=
  (schedule_mode_desired_state [] (fun _ _ => none) (fun _ => none) (fun _ => none)
      { roomId := "r1", name := "Room 1", radiatorDeviceIds := ["a"],
        controlMode := ControlMode.schedule, sensorDeviceId := none,
        targetTempC := 0, hysteresisC := 0,
        schedule := some (fun _ => [⟨"09:00", "17:00", ["a"], none⟩]) }
      Weekday.mon "10:00" "a" rfl rfl (by decide)).1.mpr
    ⟨0, ⟨"09:00", "17:00", ["a"], none⟩, rfl, by decide, by decide,
      fun j hj => absurd hj (by omega)⟩

/-- C2: for a thermostat-mode room whose sensor read succeeds, with the
positive hysteresis band the data model prescribes: heating is needed
below the band around the effective target, not needed above it, and
inside the band it keeps whether any of the rooms radiators was last
commanded on; the effective target is the slot override when present,
else the global target; and, absent a boost, each owned radiator is on
exactly when the active slot enables it AND heating is needed. -/
theorem thermostat_mode_contract (devices : List Device)
    (fetch : String → Nat → Option Int) (lastState : String → Option String)
    (boosts : String → Option Boost) (room : Room) (weekday : Weekday)
    (t R : String) (temp : Int)
    (hmode : room.controlMode = ControlMode.thermostat)
    (hread : sensorRead devices fetch room = some temp)
    (hpos : 0 < room.hysteresisC)
    (hnoboost : boosts room.roomId = none)
    (hR : R ∈ room.radiatorDeviceIds) :
    (temp < effectiveTarget room (findActiveSlot (todaysSchedule room weekday) t)
        - room.hysteresisC →
      computeHeatingNeeded devices fetch lastState room
        (findActiveSlot (todaysSchedule room weekday) t) = true)
    ∧ (temp > effectiveTarget room (findActiveSlot (todaysSchedule room weekday) t)
        + room.hysteresisC →
      computeHeatingNeeded devices fetch lastState room
        (findActiveSlot (todaysSchedule room weekday) t) = false)
    ∧ (effectiveTarget room (findActiveSlot (todaysSchedule room weekday) t)
        - room.hysteresisC ≤ temp →
      temp ≤ effectiveTarget room (findActiveSlot (todaysSchedule room weekday) t)
        + room.hysteresisC →
      computeHeatingNeeded devices fetch lastState room
        (findActiveSlot (todaysSchedule room weekday) t)
        = anyRadiatorLastOn lastState room.radiatorDeviceIds)
    ∧ (∀ slot tc, findActiveSlot (todaysSchedule room weekday) t = some slot →
        slot.targetTempC = some tc →
        effectiveTarget room (findActiveSlot (todaysSchedule room weekday) t) = tc)
    ∧ (∀ slot, findActiveSlot (todaysSchedule room weekday) t = some slot →
        slot.targetTempC = none →
        effectiveTarget room (findActiveSlot (todaysSchedule room weekday) t)
          = room.targetTempC)
    ∧ (findActiveSlot (todaysSchedule room weekday) t = none →
        effectiveTarget room (findActiveSlot (todaysSchedule room weekday) t)
          = room.targetTempC)
    ∧ ((processRoom devices fetch lastState boosts room weekday t).lookup R =
        some (if (enabledIdsInSlot (findActiveSlot (todaysSchedule room weekday) t)).contains R
                 && computeHeatingNeeded devices fetch lastState room
                      (findActiveSlot (todaysSchedule room weekday) t)
              then "on" else "off")) := by
  refine ⟨?_, ?_, ?_, ?_, ?_, ?_, ?_⟩
  · intro h
    simp only [computeHeatingNeeded, hmode, hread]
    rw [if_pos h]
  · intro h
    simp only [computeHeatingNeeded, hmode, hread]
    rw [if_neg (by omega), if_pos h]
  · intro h1 h2
    simp only [computeHeatingNeeded, hmode, hread]
    rw [if_neg (by omega), if_neg (by omega)]
  · intro slot tc hact htc
    rw [hact]
    simp [effectiveTarget, htc]
  · intro slot hact htc
    rw [hact]
    simp [effectiveTarget, htc]
  · intro hact
    rw [hact]
    simp [effectiveTarget]
  · have hlook := processRoom_lookup devices fetch lastState boosts room weekday t R hR
    rw [hnoboost, hmode] at hlook
    rw [hlook]
    simp [desiredRadiatorState]

/-- Witness for C2: with the sensor reading 18, below the band around the
default target 20, heating is needed. -/
theorem thermostat_mode_contract_witness :
    computeHeatingNeeded [witnessSensorDevice] (fun _ _ => some 18) (fun _ => none)
      witnessThermoRoom
      (findActiveSlot (todaysSchedule witnessThermoRoom Weekday.mon) "10:00") = true :=
  (thermostat_mode_contract [witnessSensorDevice] (fun _ _ => some 18) (fun _ => none)
      (fun _ => none) witnessThermoRoom Weekday.mon "10:00" "c" 18
      rfl rfl (by decide) rfl (by decide)).1 (by decide)

/-- C3: boost always wins. For any room and any radiator R the room owns,
if the pruned store holds a non-expired boost for the room whose radiator
set includes R, the desired state computed for R is on, whatever the
control mode, the schedule, the sensor oracle and the cache say. -/
theorem boost_always_wins (devices : List Device)
    (fetch : String → Nat → Option Int) (lastState : String → Option String)
    (boosts : String → Option Boost) (room : Room) (weekday : Weekday)
    (t R : String) (b : Boost) (now : Int)
    (hb : boosts room.roomId = some b)
    (hactive : now < b.«until»)
    (hR : R ∈ b.radiatorIds)
    (hRoom : R ∈ room.radiatorDeviceIds) :
    (processRoom devices fetch lastState (pruneBoosts boosts now)
        room weekday t).lookup R = some "on" := by
  have hlook := processRoom_lookup devices fetch lastState (pruneBoosts boosts now)
    room weekday t R hRoom
  have hpb : pruneBoosts boosts now room.roomId = some b := by
    unfold pruneBoosts
    rw [hb]
    show (if b.«until» ≤ now then (none : Option Boost) else some b) = some b
    rw [if_neg (by omega)]
  rw [hpb] at hlook
  rw [hlook]
  simp [desiredRadiatorState, hR]

/-- Witness for C3: a schedule-mode room outside any slot still drives its
boosted radiator on. -/
theorem boost_always_wins_witness :
    (processRoom [] (fun _ _ => none) (fun _ => none)
        (pruneBoosts (fun _ => some ⟨5000, ["a"]⟩) 1000)
        overlapRoom Weekday.mon "20:00").lookup "a" = some "on" :=
  boost_always_wins [] (fun _ _ => none) (fun _ => none)
    (fun _ => some ⟨5000, ["a"]⟩) overlapRoom Weekday.mon "20:00" "a"
    ⟨5000, ["a"]⟩ 1000 rfl (by decide) (by decide) (by decide)

/-- C7: thermostat fail-safe. Whenever the sensor read of a thermostat-mode
room resolves to nothing (missing or invalid configuration, unreachable
device, timeout, or unreadable value), heating-needed is false for the
tick, and the room is still processed: every owned radiator gets a desired
state, on exactly when a stored boost covers it, off otherwise. -/
theorem thermostat_fail_safe (devices : List Device)
    (fetch : String → Nat → Option Int) (lastState : String → Option String)
    (boosts : String → Option Boost) (room : Room) (weekday : Weekday) (t : String)
    (hmode : room.controlMode = ControlMode.thermostat)
    (hfail : sensorRead devices fetch room = none) :
    computeHeatingNeeded devices fetch lastState room
      (findActiveSlot (todaysSchedule room weekday) t) = false
    ∧ processRoom devices fetch lastState boosts room weekday t
        = room.radiatorDeviceIds.map (fun R =>
            (R, if (match boosts room.roomId with
                    | some b => b.radiatorIds.contains R
                    | none => false) then "on" else "off")) := by
  have h1 : computeHeatingNeeded devices fetch lastState room
      (findActiveSlot (todaysSchedule room weekday) t) = false := by
    simp [computeHeatingNeeded, hmode, hfail]
  refine ⟨h1, ?_⟩
  simp only [processRoom]
  apply List.map_congr_left
  intro R _
  cases hbr : boosts room.roomId with
  | none => simp [desiredRadiatorState, hmode, h1, hbr]
  | some b => simp [desiredRadiatorState, hmode, h1, hbr]

/-- Witness for C7: a thermostat room with no sensor configured and an
active boost on radiator a still produces a command for each radiator,
on for the boosted one. -/
theorem thermostat_fail_safe_witness :
    computeHeatingNeeded [] (fun _ _ => none) (fun _ => none)
      { witnessThermoRoom with sensorDeviceId := none }
      (findActiveSlot (todaysSchedule { witnessThermoRoom with sensorDeviceId := none }
        Weekday.mon) "10:00") = false :=
  (thermostat_fail_safe [] (fun _ _ => none) (fun _ => none) (fun _ => none)
      { witnessThermoRoom with sensorDeviceId := none } Weekday.mon "10:00"
      rfl rfl).1

/-- A room with no stored boost stays without one under any sequence of
store operations that never starts a boost for it: every operation other
than a start only deletes or preserves entries. -/
theorem applyBoostOps_none (ops : List BoostOp) (boosts : String → Option Boost)
    (roomId : String) (h : boosts roomId = none)
    (hops : ∀ op ∈ ops, startsBoostFor roomId op = false) :
    applyBoostOps boosts ops roomId = none := by
  induction ops generalizing boosts with
  | nil => exact h
  | cons op rest ih =>
    refine ih (applyBoostOp boosts op) ?_ (fun o ho => hops o (List.mem_cons_of_mem op ho))
    cases op with
    | start rid b =>
      have hne : (rid == roomId) = false := hops (BoostOp.start rid b) (List.mem_cons_self _ _)
      have hne2 : roomId ≠ rid := fun heq => by simp [heq] at hne
      simp [applyBoostOp, hne2, h]
    | cancel rid =>
      rw [applyBoostOp]
      cases hc : cancelBoost boosts rid with
      | error e => exact h
      | ok boosts2 =>
        rw [cancelBoost] at hc
        cases hbr : boosts rid with
        | none => rw [hbr] at hc; cases hc
        | some b =>
          rw [hbr] at hc
          injection hc with hc
          rw [← hc]
          by_cases heq : roomId = rid
          · simp [heq]
          · simp [heq, h]
    | prune now => simp [applyBoostOp, pruneBoosts, h]
    | status rid now =>
      rw [applyBoostOp, boostStatus]
      cases hbr : boosts rid with
      | none => exact h
      | some b =>
        by_cases hexp : b.«until» - now ≤ 0
        · by_cases heq : roomId = rid
          · simp [hexp, heq]
          · simp [hexp, heq, h]
        · simp [hexp, h]

/-- C9: boost expiry is monotone. The per-tick prune removes every boost
whose expiry is not in the future; in particular a boost expired at prune
time disappears, and as long as no new boost is started for the room, the
boost-status query reports no active boost at any later time, whatever
other prunes, cancels and status cleanups run in between. -/
theorem boost_expiry_monotone (boosts : String → Option Boost) (roomId : String)
    (now t : Int) (b : Boost) (ops : List BoostOp)
    (hb : boosts roomId = some b) (hexp : b.«until» ≤ now)
    (hops : ∀ op ∈ ops, startsBoostFor roomId op = false)
    (ht : now ≤ t) :
    (∀ rid b2, boosts rid = some b2 → b2.«until» ≤ now →
      pruneBoosts boosts now rid = none)
    ∧ pruneBoosts boosts now roomId = none
    ∧ applyBoostOps (pruneBoosts boosts now) ops roomId = none
    ∧ (boostStatus (applyBoostOps (pruneBoosts boosts now) ops) roomId t).2 = none := by
  have hprune : ∀ rid b2, boosts rid = some b2 → b2.«until» ≤ now →
      pruneBoosts boosts now rid = none := by
    intro rid b2 hb2 hle
    unfold pruneBoosts
    rw [hb2]
    show (if b2.«until» ≤ now then (none : Option Boost) else some b2) = none
    rw [if_pos hle]
  have h2 : pruneBoosts boosts now roomId = none := hprune roomId b hb hexp
  have h3 : applyBoostOps (pruneBoosts boosts now) ops roomId = none :=
    applyBoostOps_none ops (pruneBoosts boosts now) roomId h2 hops
  refine ⟨hprune, h2, h3, ?_⟩
  rw [boostStatus, h3]

/-- Witness for C9: a boost that expired at time 1000 is pruned, survives a
status query and an unrelated cancel, and reports inactive at time 2000. -/
theorem boost_expiry_monotone_witness :
    (boostStatus
      (applyBoostOps (pruneBoosts (fun _ => some ⟨900, ["a"]⟩) 1000)
        [BoostOp.status "r1" 1500, BoostOp.cancel "other"])
      "r1" 2000).2 = none :=
  (boost_expiry_monotone (fun _ => some ⟨900, ["a"]⟩) "r1" 1000 2000 ⟨900, ["a"]⟩
    [BoostOp.status "r1" 1500, BoostOp.cancel "other"]
    rfl (by decide)
    (by intro op hop
        rcases List.mem_cons.mp hop with h | h
        · rw [h]; rfl
        · rcases List.mem_cons.mp h with h2 | h2
          · rw [h2]; rfl
          · cases h2)
    (by decide)).2.2.2

/-- C10: the cancel-boost route checks only presence. With an entry stored
for the room, even one already expired, cancellation succeeds and removes
exactly that entry; and the route answers NotFound precisely when no entry
at all is stored for the room. -/
theorem cancelBoost_presence_only (boosts : String → Option Boost) (roomId : String)
    (b : Boost) (now : Int)
    (hb : boosts roomId = some b) (hexp : b.«until» ≤ now) :
    cancelBoost boosts roomId =
      Except.ok (fun rid => if rid = roomId then none else boosts rid)
    ∧ ∀ boosts2 : String → Option Boost,
        (cancelBoost boosts2 roomId = Except.error BoostError.notFound
          ↔ boosts2 roomId = none) := by
  constructor
  · rw [cancelBoost, hb]
  · intro boosts2
    cases h2 : boosts2 roomId with
    | none => simp [cancelBoost, h2]
    | some b2 => simp [cancelBoost, h2]

/-- Witness for C10: an entry that expired at time 900 is still cancelled
successfully at time 1000. -/
theorem cancelBoost_presence_only_witness :
    cancelBoost (fun _ => some ⟨900, ["a"]⟩) "r1" =
      Except.ok (fun rid => if rid = "r1" then none
        else (fun _ => some (⟨900, ["a"]⟩ : Boost)) rid) :=
  (cancelBoost_presence_only (fun _ => some ⟨900, ["a"]⟩) "r1" ⟨900, ["a"]⟩ 1000
    rfl (by decide)).1


/-- Dispatcher step on a command whose device is missing from the
registry: no call, no cache change for that command. -/
theorem dispatchCommands_cons_noDevice (devices : List Device)
    (sendOk : Device → Bool → Bool) (lastState : String → Option String)
    (d s : String) (rest : List (String × String))
    (hfind : findDeviceById devices d = none) :
    dispatchCommands devices sendOk lastState ((d, s) :: rest)
      = dispatchCommands devices sendOk lastState rest := by
  simp [dispatchCommands, hfind]

/-- Dispatcher step on a command equal to the cached state: skipped. -/
theorem dispatchCommands_cons_same (devices : List Device)
    (sendOk : Device → Bool → Bool) (lastState : String → Option String)
    (d s : String) (rest : List (String × String)) (device : Device)
    (hfind : findDeviceById devices d = some device)
    (hsame : (lastState d == some s) = true) :
    dispatchCommands devices sendOk lastState ((d, s) :: rest)
      = dispatchCommands devices sendOk lastState rest := by
  simp [dispatchCommands, hfind, hsame]

/-- Dispatcher step on a changed command for a known device: one call is
issued and the cache entry is updated exactly when the call succeeds. -/
theorem dispatchCommands_cons_send (devices : List Device)
    (sendOk : Device → Bool → Bool) (lastState : String → Option String)
    (d s : String) (rest : List (String × String)) (device : Device)
    (hfind : findDeviceById devices d = some device)
    (hsame : (lastState d == some s) = false) :
    dispatchCommands devices sendOk lastState ((d, s) :: rest)
      = ((dispatchCommands devices sendOk
            (if sendOk device (s == "on")
             then fun x => if x = d then some s else lastState x
             else lastState) rest).1,
         (d, s) :: (dispatchCommands devices sendOk
            (if sendOk device (s == "on")
             then fun x => if x = d then some s else lastState x
             else lastState) rest).2) := by
  simp [dispatchCommands, hfind, hsame]

/-- Devices that appear in no queued command keep their cache entry, and no
call is issued for them. -/
theorem dispatch_untouched (devices : List Device) (sendOk : Device → Bool → Bool)
    (commands : List (String × String)) (lastState : String → Option String)
    (deviceId : String) (h : deviceId ∉ commands.map Prod.fst) :
    (dispatchCommands devices sendOk lastState commands).1 deviceId = lastState deviceId
    ∧ ∀ c ∈ (dispatchCommands devices sendOk lastState commands).2, c.1 ≠ deviceId := by
  induction commands generalizing lastState with
  | nil => exact ⟨rfl, by intro c hc; cases hc⟩
  | cons cmd rest ih =>
    obtain ⟨d, s⟩ := cmd
    have hd : d ≠ deviceId := by
      intro heq
      exact h (by simp [heq])
    have hrest : deviceId ∉ rest.map Prod.fst := by
      intro hm
      exact h (List.mem_cons_of_mem _ (by simpa using hm))
    cases hfind : findDeviceById devices d with
    | none =>
      rw [dispatchCommands_cons_noDevice devices sendOk lastState d s rest hfind]
      exact ih lastState hrest
    | some device =>
      cases hsame : lastState d == some s with
      | true =>
        rw [dispatchCommands_cons_same devices sendOk lastState d s rest device hfind hsame]
        exact ih lastState hrest
      | false =>
        rw [dispatchCommands_cons_send devices sendOk lastState d s rest device hfind hsame]
        have hnl : (if sendOk device (s == "on")
            then fun x => if x = d then some s else lastState x
            else lastState) deviceId = lastState deviceId := by
          by_cases hok : sendOk device (s == "on") = true
          · rw [if_pos hok]
            exact if_neg (Ne.symm hd)
          · rw [if_neg hok]
        obtain ⟨ih1, ih2⟩ := ih _ hrest
        refine ⟨by rw [ih1, hnl], ?_⟩
        intro c hc
        rcases List.mem_cons.mp hc with rfl | hcr
        · exact hd
        · exact ih2 c hcr

/-- C8 amended: a device id missing from the Device Registry still gets its
desired state computed, but the dispatcher issues no transport call for it
and leaves its cache entry untouched, whatever the queued commands are;
the rest of the tick proceeds. -/
theorem missing_device_skipped (devices : List Device) (sendOk : Device → Bool → Bool)
    (lastState : String → Option String) (commands : List (String × String))
    (deviceId : String) (hdev : findDeviceById devices deviceId = none) :
    (∀ c ∈ (dispatchCommands devices sendOk lastState commands).2, c.1 ≠ deviceId)
    ∧ (dispatchCommands devices sendOk lastState commands).1 deviceId
        = lastState deviceId := by
  induction commands generalizing lastState with
  | nil => exact ⟨fun _ hc => (nomatch hc), rfl⟩
  | cons cmd rest ih =>
    obtain ⟨d, s⟩ := cmd
    by_cases hd : d = deviceId
    · subst hd
      rw [dispatchCommands_cons_noDevice devices sendOk lastState d s rest hdev]
      exact ih lastState
    · cases hfind : findDeviceById devices d with
      | none =>
        rw [dispatchCommands_cons_noDevice devices sendOk lastState d s rest hfind]
        exact ih lastState
      | some device =>
        cases hsame : lastState d == some s with
        | true =>
          rw [dispatchCommands_cons_same devices sendOk lastState d s rest device hfind hsame]
          exact ih lastState
        | false =>
          rw [dispatchCommands_cons_send devices sendOk lastState d s rest device hfind hsame]
          have hnl : (if sendOk device (s == "on")
              then fun x => if x = d then some s else lastState x
              else lastState) deviceId = lastState deviceId := by
            by_cases hok : sendOk device (s == "on") = true
            · rw [if_pos hok]
              exact if_neg (fun heq => hd heq.symm)
            · rw [if_neg hok]
          obtain ⟨ih1, ih2⟩ := ih ((if sendOk device (s == "on")
              then fun x => if x = d then some s else lastState x
              else lastState))
          refine ⟨?_, by rw [ih2, hnl]⟩
          intro c hc
          rcases List.mem_cons.mp hc with rfl | hcr
          · exact fun heq => hd heq
          · exact ih1 c hcr


/-- C4 amended: dispatcher contract for devices present in the registry.
For a queued command of such a device (each device queued at most once), a
set-relay call is issued on the tick exactly when the desired state
differs from the cached one (a missing cache entry counts as different),
at most one call is issued, and the cache entry becomes the desired state
exactly when the issued call succeeds, staying untouched on failure or
skip. -/
theorem dispatcher_contract (devices : List Device) (sendOk : Device → Bool → Bool)
    (lastState : String → Option String) (commands : List (String × String))
    (deviceId desiredState : String) (device : Device)
    (hnodup : (commands.map Prod.fst).Nodup)
    (hmem : (deviceId, desiredState) ∈ commands)
    (hdev : findDeviceById devices deviceId = some device) :
    ((dispatchCommands devices sendOk lastState commands).2.filter
        (fun c => c.1 == deviceId)
      = if lastState deviceId == some desiredState then []
        else [(deviceId, desiredState)])
    ∧ ((dispatchCommands devices sendOk lastState commands).1 deviceId
      = if lastState deviceId == some desiredState then lastState deviceId
        else if sendOk device (desiredState == "on") then some desiredState
        else lastState deviceId) := by
  induction commands generalizing lastState with
  | nil => cases hmem
  | cons cmd rest ih =>
    obtain ⟨d, s⟩ := cmd
    rw [List.map_cons] at hnodup
    have hnod := List.nodup_cons.mp hnodup
    rcases List.mem_cons.mp hmem with heq | hmem2
    · injection heq with hd hs
      subst hd
      subst hs
      have hnotin : deviceId ∉ rest.map Prod.fst := hnod.1
      cases hsame : lastState deviceId == some desiredState with
      | true =>
        rw [dispatchCommands_cons_same devices sendOk lastState deviceId desiredState
          rest device hdev hsame]
        obtain ⟨hu1, hu2⟩ := dispatch_untouched devices sendOk rest lastState deviceId hnotin
        constructor
        · rw [List.filter_eq_nil_iff.mpr (fun c hc => by simpa using hu2 c hc)]
          simp [hsame]
        · rw [hu1]
          simp [hsame]
      | false =>
        rw [dispatchCommands_cons_send devices sendOk lastState deviceId desiredState
          rest device hdev hsame]
        obtain ⟨hu1, hu2⟩ := dispatch_untouched devices sendOk rest
          (if sendOk device (desiredState == "on")
           then fun x => if x = deviceId then some desiredState else lastState x
           else lastState) deviceId hnotin
        constructor
        · rw [List.filter_cons]
          rw [List.filter_eq_nil_iff.mpr (fun c hc => by simpa using hu2 c hc)]
          simp [hsame]
        · rw [hu1]
          by_cases hok : sendOk device (desiredState == "on") = true
          · simp [hsame, hok]
          · rw [Bool.not_eq_true] at hok
            simp [hsame, hok]
    · have hd : d ≠ deviceId := by
        intro heq
        subst heq
        exact hnod.1 (List.mem_map.mpr ⟨(d, desiredState), hmem2, rfl⟩)
      cases hfind : findDeviceById devices d with
      | none =>
        rw [dispatchCommands_cons_noDevice devices sendOk lastState d s rest hfind]
        exact ih lastState hnod.2 hmem2
      | some device2 =>
        cases hsame2 : lastState d == some s with
        | true =>
          rw [dispatchCommands_cons_same devices sendOk lastState d s rest device2
            hfind hsame2]
          exact ih lastState hnod.2 hmem2
        | false =>
          rw [dispatchCommands_cons_send devices sendOk lastState d s rest device2
            hfind hsame2]
          have hnl : (if sendOk device2 (s == "on")
              then fun x => if x = d then some s else lastState x
              else lastState) deviceId = lastState deviceId := by
            by_cases hok : sendOk device2 (s == "on") = true
            · rw [if_pos hok]
              exact if_neg (Ne.symm hd)
            · rw [if_neg hok]
          obtain ⟨ihf, ihc⟩ := ih ((if sendOk device2 (s == "on")
              then fun x => if x = d then some s else lastState x
              else lastState)) hnod.2 hmem2
          rw [hnl] at ihf ihc
          constructor
          · rw [List.filter_cons]
            have hdfalse : ((d, s).1 == deviceId) = false := by
              simpa using hd
            simp only [hdfalse, Bool.false_eq_true, if_false]
            exact ihf
          · exact ihc
/-- Witness for the amended C4: with an empty cache the single changed
command for a known device issues exactly one call. -/
theorem dispatcher_contract_witness :
    (dispatchCommands [witnessRelayDevice] (fun _ _ => true) (fun _ => none)
        [("a", "on")]).2.filter (fun c => c.1 == "a") = [("a", "on")] := by
  simpa using (dispatcher_contract [witnessRelayDevice] (fun _ _ => true)
    (fun _ => none) [("a", "on")] "a" "on" witnessRelayDevice
    (by simp) (by simp) rfl).1

/-- C4 counterexample: a queued command for a device id absent from the
registry has a desired state differing from the (empty) cache, yet the
dispatcher issues no call for it, so the issued-iff-different contract
fails without the registry-presence qualification. -/
theorem dispatcher_unknown_device_counterexample :
    ((fun _ => (none : Option String)) "ghost" ≠ some "on")
    ∧ (dispatchCommands [] (fun _ _ => true) (fun _ => none) [("ghost", "on")]).2
        = [] :=
  ⟨by simp, rfl⟩

/-- Witness for the amended C8 at a concrete tick: a command for the
unregistered id ghost is skipped with the cache left empty. -/
theorem missing_device_skipped_witness :
    (dispatchCommands [] (fun _ _ => true) (fun _ => none) [("ghost", "on")]).1 "ghost"
      = (fun _ => (none : Option String)) "ghost" :=
  (missing_device_skipped [] (fun _ _ => true) (fun _ => none) [("ghost", "on")]
    "ghost" rfl).2

/-- C8 counterexample: a radiator id missing from the Device Registry does
NOT get desired state off; with its slot active the reconciliation still
computes on for it (the registry is only consulted later, at dispatch,
which skips the device). -/
theorem missing_device_desired_on_counterexample :
    findDeviceById [] "ghost" = none
    ∧ (processRoom [] (fun _ _ => none) (fun _ => none) (fun _ => none)
        ghostRoom Weekday.mon "10:00").lookup "ghost" = some "on" :=
  ⟨rfl, rfl⟩

/-- C5 counterexample: radiatorIds supplied as the empty list is a given
argument whose intersection with the radiators of the room is empty, yet
the route does not fail with InvalidInput: the non-empty-array guard sends
it down the default branch and the request succeeds, boosting every
radiator of the room. -/
theorem startBoost_empty_given_counterexample :
    startBoost [boostRouteRoom] (fun _ => none) "r1" 30 (some []) 1000
      = Except.ok
          (fun rid => if rid = "r1"
             then some ⟨1000 + 30 * 60 * 1000, boostRouteRoom.radiatorDeviceIds⟩
             else (fun _ => (none : Option Boost)) rid,
           ⟨"r1", boostRouteRoom.radiatorDeviceIds, 1000 + 30 * 60 * 1000⟩) := rfl

/-- C5 amended: the boost route fails with InvalidInput when
durationMinutes is not positive; fails with NotFound when, for a positive
duration, the room id is unknown; when radiatorIds is given as a NON-EMPTY
list, fails with InvalidInput if its intersection with the radiators of
the room is empty and otherwise boosts exactly that intersection; when
radiatorIds is absent or an empty list, boosts all radiators of the room.
On success the expiry is now plus durationMinutes (in milliseconds), the
stored boost for the room is replaced outright leaving other rooms
untouched, and the response carries the resolved radiator set and the
expiry. -/
theorem startBoost_contract (rooms : List Room) (boosts : String → Option Boost)
    (roomId : String) (durationMinutes : Int)
    (radiatorIds : Option (List String)) (now : Int) :
    (durationMinutes ≤ 0 →
      startBoost rooms boosts roomId durationMinutes radiatorIds now
        = Except.error BoostError.invalidInput)
    ∧ (0 < durationMinutes → rooms.find? (fun r => r.roomId == roomId) = none →
      startBoost rooms boosts roomId durationMinutes radiatorIds now
        = Except.error BoostError.notFound)
    ∧ (∀ room ids, 0 < durationMinutes →
        rooms.find? (fun r => r.roomId == roomId) = some room →
        radiatorIds = some ids → ids ≠ [] →
        ids.filter (fun id => room.radiatorDeviceIds.contains id) = [] →
        startBoost rooms boosts roomId durationMinutes radiatorIds now
          = Except.error BoostError.invalidInput)
    ∧ (∀ room ids, 0 < durationMinutes →
        rooms.find? (fun r => r.roomId == roomId) = some room →
        radiatorIds = some ids → ids ≠ [] →
        ids.filter (fun id => room.radiatorDeviceIds.contains id) ≠ [] →
        startBoost rooms boosts roomId durationMinutes radiatorIds now
          = Except.ok
              (fun rid => if rid = roomId
                 then some ⟨now + durationMinutes * 60 * 1000,
                   ids.filter (fun id => room.radiatorDeviceIds.contains id)⟩
                 else boosts rid,
               ⟨roomId, ids.filter (fun id => room.radiatorDeviceIds.contains id),
                 now + durationMinutes * 60 * 1000⟩))
    ∧ (∀ room, 0 < durationMinutes →
        rooms.find? (fun r => r.roomId == roomId) = some room →
        (radiatorIds = none ∨ radiatorIds = some []) →
        startBoost rooms boosts roomId durationMinutes radiatorIds now
          = Except.ok
              (fun rid => if rid = roomId
                 then some ⟨now + durationMinutes * 60 * 1000, room.radiatorDeviceIds⟩
                 else boosts rid,
               ⟨roomId, room.radiatorDeviceIds,
                 now + durationMinutes * 60 * 1000⟩)) := by
  refine ⟨?_, ?_, ?_, ?_, ?_⟩
  · intro h
    simp [startBoost, h]
  · intro hpos hnone
    simp [startBoost, hnone, not_le.mpr hpos]
  · intro room ids hpos hfound hids hne hfil
    subst hids
    have hall : ∀ a ∈ ids, a ∉ room.radiatorDeviceIds := by
      intro a ha hmem
      have hin : a ∈ ids.filter (fun id => room.radiatorDeviceIds.contains id) :=
        List.mem_filter.mpr ⟨ha, by simpa using hmem⟩
      rw [hfil] at hin
      cases hin
    simp [startBoost, not_le.mpr hpos, hfound, List.length_pos.mpr hne]
    rw [if_pos hall]
  · intro room ids hpos hfound hids hne hfil
    subst hids
    have hnall : ¬ ∀ a ∈ ids, a ∉ room.radiatorDeviceIds := by
      intro hall
      apply hfil
      apply List.filter_eq_nil_iff.mpr
      intro a ha
      simpa using hall a ha
    simp [startBoost, not_le.mpr hpos, hfound, List.length_pos.mpr hne, hnall]
  · intro room hpos hfound hor
    rcases hor with rfl | rfl
    · simp [startBoost, not_le.mpr hpos, hfound]
    · simp [startBoost, not_le.mpr hpos, hfound]

/-- Witness for the amended C5: a zero duration is rejected. -/
theorem startBoost_contract_witness :
    startBoost [boostRouteRoom] (fun _ => none) "r1" 0 none 1000
      = Except.error BoostError.invalidInput :=
  (startBoost_contract [boostRouteRoom] (fun _ => none) "r1" 0 none 1000).1
    (by decide)
